import Mathlib

/-!
Shallow embedding of the 16-bit stack VM (`dtg-lucifer/16bit-vm-rust`).

Conventions of the embedding:
* Machine integers (`u8`, `u16`) are `Nat` with explicit wrapping: `x % 256`
  for `u8` and `x % 65536` for `u16` wherever the Rust value would wrap
  (release-mode two's-complement wrapping semantics).
* Rust bit operations on integers are transliterated arithmetically with the
  original expression recorded in a comment next to each definition:
  `x & 0xff = x % 256`, `(x & 0xff00) >> 8 = x / 256 % 256`,
  `(lo as u16) | ((hi as u16) << 8) = lo + 256 * hi` (`lo`, `hi` are `u8`,
  so the or of disjoint byte ranges is addition), and
  `((a as u16) << 8) | c = a * 256 + c` for a constant `c < 256`.
* Rust `Result<T, String>` becomes `Except VMErr T`: each distinct
  `format!` error message in the source is one constructor of `VMErr`,
  carrying the numeric datum the message interpolates.
* `Option<T>` is `Option T`; in-place mutation is explicit state passing.

The repository carries two generations of the instruction codec:
the older one inside `src/machine.rs` (namespace `machine` below) and the
newer one in `src/opcodes.rs` / the `define_instructions!` macro of
`src/macros.rs` together with the 13-entry register file of `src/lib.rs`
(namespace `rustyvm` below).  Both are embedded.
-/

/-- Typed image of the `format!`-built error strings of the source
(`Err(String)` payloads).  Each constructor corresponds to one distinct
message and carries the number interpolated into it. -/
inductive VMErr where
  /-- "memory read fault - 0x{:X}" (raised by `Machine::pop`). -/
  | memoryReadFault (addr : Nat)
  /-- "memory write fault - 0x{:X}" (raised by `Machine::push`). -/
  | memoryWriteFault (addr : Nat)
  /-- "memory read fault at PC=0x{:04X}" (raised by the fetch in `Machine::step`). -/
  | fetchFault (pc : Nat)
  /-- "unknown op - 0x{:X}" / "Unknown instruction - 0x{:X}". -/
  | unknownOp (op : Nat)
  /-- "unknown register - 0x{:X}" / "Unknown register - 0x{:X}". -/
  | unknownRegister (code : Nat)
  /-- "unknown signal - 0x{:X}" (raised by the `Signal` arm of `Machine::step`). -/
  | unknownSignal (s : Nat)
  deriving DecidableEq, Repr

deriving instance DecidableEq for Except

/-- `LinearMemory` of `src/memory.rs`: a fixed-size byte buffer
(`bytes: Vec<u8>, size: usize`).  The buffer is modeled as a function;
`write` stores `value % 256` making the `u8` type of a cell explicit. -/
structure LinearMemory where
  bytes : Nat → Nat
  size : Nat

/-- `LinearMemory::new(n)`: zero-initialized buffer of size `n`. -/
def LinearMemory.new (n : Nat) : LinearMemory :=
  { bytes := fun _ => 0, size := n }

/-- `<LinearMemory as Addressable>::read`: bounds-checked byte read,
`None` when `addr as usize >= size`. -/
def LinearMemory.read (m : LinearMemory) (addr : Nat) : Option Nat :=
  if addr < m.size then some (m.bytes addr) else none

/-- `<LinearMemory as Addressable>::write`: bounds-checked byte write,
returns the (possibly updated) memory together with the success flag.
The stored cell is a `u8`, hence `value % 256`. -/
def LinearMemory.write (m : LinearMemory) (addr value : Nat) : LinearMemory × Bool :=
  if addr < m.size then
    ({ m with bytes := fun a => if a = addr then value % 256 else m.bytes a }, true)
  else
    (m, false)

/-- `Addressable::read2`: little-endian 16-bit read,
`(lo as u16) | ((hi as u16) << 8)`, written `lo + 256 * hi` because `lo` is a
`u8`.  `addr + 1` is `u16` addition, hence the `% 65536`. -/
def LinearMemory.read2 (m : LinearMemory) (addr : Nat) : Option Nat :=
  match m.read addr with
  | some lo =>
    match m.read ((addr + 1) % 65536) with
    | some hi => some (lo + 256 * hi)
    | none => none
  | none => none

/-- `Addressable::write2`: little-endian 16-bit write,
`lo = (value & 0xff) as u8` is `value % 256`,
`hi = ((value >> 8) & 0xff) as u8` is `value / 256 % 256`;
`self.write(addr, lo) && self.write(addr + 1, hi)` short-circuits, so the
high byte is only written when the low-byte write succeeded. -/
def LinearMemory.write2 (m : LinearMemory) (addr value : Nat) : LinearMemory × Bool :=
  let lo := value % 256
  let hi := value / 256 % 256
  match m.write addr lo with
  | (m1, true) => m1.write ((addr + 1) % 65536) hi
  | (m1, false) => (m1, false)

namespace machine

/-- `Register` of `src/machine.rs`: 8 roles, `#[repr(u8)]` with implicit
discriminants 0..7 in declaration order. -/
inductive Register where
  | A | B | C | M | SP | PC | BP | FLAGS
  deriving DecidableEq, Repr

/-- The `Register::X as u8` cast: the declared discriminant. -/
def Register.index : Register → Nat
  | .A => 0
  | .B => 1
  | .C => 2
  | .M => 3
  | .SP => 4
  | .PC => 5
  | .BP => 6
  | .FLAGS => 7

/-- `Register::from_u8` of `src/machine.rs` (guard order of the source:
A, B, C, M, SP, BP, PC, FLAGS). -/
def Register.from_u8 (v : Nat) : Option Register :=
  if v = Register.A.index then some .A
  else if v = Register.B.index then some .B
  else if v = Register.C.index then some .C
  else if v = Register.M.index then some .M
  else if v = Register.SP.index then some .SP
  else if v = Register.BP.index then some .BP
  else if v = Register.PC.index then some .PC
  else if v = Register.FLAGS.index then some .FLAGS
  else none

/-- `Op` of `src/machine.rs`, `#[repr(u8)]` with implicit discriminants
0..5 in declaration order (Nop, Push, PopRegister, AddStack, AddRegister,
Signal). -/
inductive Op where
  | Nop
  | Push (v : Nat)
  | PopRegister (r : Register)
  | AddStack
  | AddRegister (r1 r2 : Register)
  | Signal (s : Nat)
  deriving DecidableEq, Repr

/-- `Op::value` of `src/machine.rs`: the discriminant read through the
unsafe `#[repr(u8)]` cast, i.e. the declaration-order index. -/
def Op.value : Op → Nat
  | .Nop => 0
  | .Push _ => 1
  | .PopRegister _ => 2
  | .AddStack => 3
  | .AddRegister _ _ => 4
  | .Signal _ => 5

/-- `parse_instructions_arg` of `src/machine.rs`:
`((ins & 0xff00) >> 8) as u8`, i.e. `ins / 256 % 256`. -/
def parse_instructions_arg (ins : Nat) : Nat :=
  ins / 256 % 256

/-- `parse_instructions` of `src/machine.rs` (the older decoder): guard
chain over `op = (ins & 0xff) as u8`, i.e. `ins % 256`.  Note that
`AddRegister` (0x04) is not handled here (a `TODO` in the source), so
opcode 4 takes the unknown-op branch. -/
def parse_instructions (ins : Nat) : Except VMErr Op :=
  let op := ins % 256
  if op = Op.Nop.value then .ok .Nop
  else if op = (Op.Push 0).value then .ok (.Push (parse_instructions_arg ins))
  else if op = (Op.PopRegister .A).value then
    match Register.from_u8 (parse_instructions_arg ins) with
    | some r => .ok (.PopRegister r)
    | none => .error (.unknownRegister (parse_instructions_arg ins))
  else if op = Op.AddStack.value then .ok .AddStack
  else if op = (Op.Signal 0).value then .ok (.Signal (parse_instructions_arg ins))
  else .error (.unknownOp op)

/-- The `Machine` struct of `src/machine.rs` minus its
`signal_handlers: HashMap<u8, SignalFunction>` field: a field holding
functions over `Machine` itself is not strictly positive in Lean, so the
handler table is passed to `step` as an explicit parameter instead. -/
structure Machine where
  registers : Register → Nat
  halt : Bool
  memory : LinearMemory

/-- Pointwise update of the register array (`self.registers[r as usize] = v`;
the discriminants are distinct, so array indexing is function update). -/
def setReg (regs : Register → Nat) (r : Register) (v : Nat) : Register → Nat :=
  fun x => if x = r then v else regs x

/-- `type SignalFunction = fn(&mut Machine) -> Result<(), String>`. -/
def SignalFunction : Type :=
  Machine → Machine × Except VMErr Unit

/-- The signal-handler table (`HashMap<u8, SignalFunction>`) as a lookup
function, passed to `step` explicitly (see `Machine`). -/
def SignalTable : Type :=
  Nat → Option SignalFunction

/-- `Machine::new`: 8 KB memory, SP = 0x1000, PC = 0, all other
registers 0, halt flag clear. -/
def Machine.new : Machine :=
  let memory_size := 8 * 1024
  { registers := setReg (setReg (fun _ => 0) .SP 0x1000) .PC 0
    halt := false
    memory := LinearMemory.new memory_size }

/-- `Machine::get_register`. -/
def Machine.get_register (m : Machine) (r : Register) : Nat :=
  m.registers r

/-- `Machine::pop`: `registers[SP] -= 2` (wrapping `u16` subtraction),
read 16 bits at the new SP; on a failed read, SP is restored
(`+= 2`) and the error is returned. -/
def Machine.pop (m : Machine) : Machine × Except VMErr Nat :=
  let m1 : Machine :=
    { m with registers := setReg m.registers .SP ((m.registers .SP + 65536 - 2) % 65536) }
  let sp := m1.registers .SP
  match m1.memory.read2 sp with
  | some v => (m1, .ok v)
  | none =>
    ({ m1 with registers := setReg m1.registers .SP ((sp + 2) % 65536) },
     .error (.memoryReadFault sp))

/-- `Machine::push`: write 16 bits at the current SP; on success
`registers[SP] += 2` (wrapping `u16` addition), on failure SP stays and the
error is returned (the memory keeps whatever `write2` partially wrote). -/
def Machine.push (m : Machine) (v : Nat) : Machine × Except VMErr Unit :=
  let sp := m.registers .SP
  match m.memory.write2 sp v with
  | (mem1, false) => ({ m with memory := mem1 }, .error (.memoryWriteFault sp))
  | (mem1, true) =>
    ({ m with memory := mem1, registers := setReg m.registers .SP ((sp + 2) % 65536) },
     .ok ())

/-- `Machine::step` of `src/machine.rs`: fetch the 16-bit word at PC
(failure returns before PC moves), advance PC by 2 (wrapping `u16`
addition), decode, dispatch.  The two single-byte debug reads and the
`println!` tracing of the source do not touch machine state and are not
modeled. -/
def Machine.step (handlers : SignalTable) (m : Machine) : Machine × Except VMErr Unit :=
  let pc := m.registers .PC
  match m.memory.read2 pc with
  | none => (m, .error (.fetchFault pc))
  | some ins =>
    let m1 : Machine := { m with registers := setReg m.registers .PC ((pc + 2) % 65536) }
    match parse_instructions ins with
    | .error e => (m1, .error e)
    | .ok op =>
      match op with
      | .Nop => (m1, .ok ())
      | .Push v => m1.push v
      | .PopRegister r =>
        match m1.pop with
        | (m2, .error e) => (m2, .error e)
        | (m2, .ok value) => ({ m2 with registers := setReg m2.registers r value }, .ok ())
      | .AddStack =>
        match m1.pop with
        | (m2, .error e) => (m2, .error e)
        | (m2, .ok a) =>
          match m2.pop with
          | (m3, .error e) => (m3, .error e)
          | (m3, .ok b) =>
            let result := (a + b) % 65536
            m3.push result
      | .AddRegister r1 r2 =>
        ({ m1 with registers := setReg m1.registers r1 ((m1.registers r1 + m1.registers r2) % 65536) },
         .ok ())
      | .Signal s =>
        match handlers s with
        | none => (m1, .error (.unknownSignal s))
        | some f => f m1

end machine

namespace rustyvm

/-- The crate-level `Register` enum of `src/lib.rs` / `src/registers.rs`,
produced by the `define_registers!` macro of `src/macros.rs`: 13 entries
with explicit discriminants 0x00..0x0C. -/
inductive Register where
  | A | B | C | M | SP | PC | BP | FLAGS | R0 | R1 | R2 | R3 | R4
  deriving DecidableEq, Repr

/-- The `*reg as u8` cast used by the macro-generated code: the declared
discriminant of the variant. -/
def Register.code : Register → Nat
  | .A => 0x00
  | .B => 0x01
  | .C => 0x02
  | .M => 0x03
  | .SP => 0x04
  | .PC => 0x05
  | .BP => 0x06
  | .FLAGS => 0x07
  | .R0 => 0x08
  | .R1 => 0x09
  | .R2 => 0x0A
  | .R3 => 0x0B
  | .R4 => 0x0C

/-- `Register::from_u8` generated by `define_registers!`: a guard chain
`x if x == $value` over the variants in declaration order. -/
def Register.from_u8 (v : Nat) : Option Register :=
  if v = 0x00 then some .A
  else if v = 0x01 then some .B
  else if v = 0x02 then some .C
  else if v = 0x03 then some .M
  else if v = 0x04 then some .SP
  else if v = 0x05 then some .PC
  else if v = 0x06 then some .BP
  else if v = 0x07 then some .FLAGS
  else if v = 0x08 then some .R0
  else if v = 0x09 then some .R1
  else if v = 0x0A then some .R2
  else if v = 0x0B then some .R3
  else if v = 0x0C then some .R4
  else none

/-- `Op` of `src/opcodes.rs`, `#[repr(u8)]` with the explicit discriminants
Nop = 0x00, Push = 0x01, PopRegister = 0x02, PushRegister = 0x03,
AddStack = 0x0F, AddRegister = 0x04, Signal = 0x09. -/
inductive Op where
  | Nop
  | Push (v : Nat)
  | PopRegister (r : Register)
  | PushRegister (r : Register)
  | AddStack
  | AddRegister (r1 r2 : Register)
  | Signal (s : Nat)
  deriving DecidableEq, Repr

/-- `Op::value` of `src/opcodes.rs`: the declared discriminant, read in the
source through the unsafe `#[repr(u8)]` cast. -/
def Op.value : Op → Nat
  | .Nop => 0x00
  | .Push _ => 0x01
  | .PopRegister _ => 0x02
  | .PushRegister _ => 0x03
  | .AddStack => 0x0F
  | .AddRegister _ _ => 0x04
  | .Signal _ => 0x09

/-- `parse_instructions_arg` of `src/opcodes.rs`:
`((ins & 0xff00) >> 8) as u8`, i.e. `ins / 256 % 256`. -/
def parse_instructions_arg (ins : Nat) : Nat :=
  ins / 256 % 256

/-- `parse_instructions` of `src/opcodes.rs`: guard chain over
`op = (ins & 0xff) as u8` (i.e. `ins % 256`), in source order
Nop, Push, PopRegister, PushRegister, AddRegister, AddStack, Signal.
For `AddRegister`, `reg1 = (arg >> 4) & 0x0F` is `arg / 16 % 16` and
`reg2 = arg & 0x0F` is `arg % 16`. -/
def parse_instructions (ins : Nat) : Except VMErr Op :=
  let op := ins % 256
  if op = Op.Nop.value then .ok .Nop
  else if op = (Op.Push 0).value then .ok (.Push (parse_instructions_arg ins))
  else if op = (Op.PopRegister .A).value then
    match Register.from_u8 (parse_instructions_arg ins) with
    | some r => .ok (.PopRegister r)
    | none => .error (.unknownRegister (parse_instructions_arg ins))
  else if op = (Op.PushRegister .A).value then
    match Register.from_u8 (parse_instructions_arg ins) with
    | some r => .ok (.PushRegister r)
    | none => .error (.unknownRegister (parse_instructions_arg ins))
  else if op = (Op.AddRegister .A .A).value then
    let arg := parse_instructions_arg ins
    let reg1 := arg / 16 % 16
    let reg2 := arg % 16
    match Register.from_u8 reg1 with
    | none => .error (.unknownRegister reg1)
    | some r1 =>
      match Register.from_u8 reg2 with
      | none => .error (.unknownRegister reg2)
      | some r2 => .ok (.AddRegister r1 r2)
  else if op = Op.AddStack.value then .ok .AddStack
  else if op = (Op.Signal 0).value then .ok (.Signal (parse_instructions_arg ins))
  else .error (.unknownOp op)

/-- The decoder exactly as the specification words it (spec §4.3 and its
opcode table), for the refinement comparison with the source decoder:
extract `opcode = word & 0xFF` and `arg = (word >> 8) & 0xFF`, match the
opcode against the table (Nop 0x00, Push 0x01, PopRegister 0x02,
PushRegister 0x03, AddRegister 0x04 with high nibble = first register,
Signal 0x09, AddStack 0x0F), resolve registers via `Register::from_u8`
failing with `UnknownRegister`, and fail with `UnknownOpcode` when no
table entry matches. -/
def decode_spec (word : Nat) : Except VMErr Op :=
  let opcode := word % 256
  let arg := word / 256 % 256
  if opcode = 0x00 then .ok .Nop
  else if opcode = 0x01 then .ok (.Push arg)
  else if opcode = 0x02 then
    match Register.from_u8 arg with
    | some r => .ok (.PopRegister r)
    | none => .error (.unknownRegister arg)
  else if opcode = 0x03 then
    match Register.from_u8 arg with
    | some r => .ok (.PushRegister r)
    | none => .error (.unknownRegister arg)
  else if opcode = 0x04 then
    match Register.from_u8 (arg / 16 % 16) with
    | none => .error (.unknownRegister (arg / 16 % 16))
    | some r1 =>
      match Register.from_u8 (arg % 16) with
      | none => .error (.unknownRegister (arg % 16))
      | some r2 => .ok (.AddRegister r1 r2)
  else if opcode = 0x09 then .ok (.Signal arg)
  else if opcode = 0x0F then .ok .AddStack
  else .error (.unknownOp opcode)

/-- The instruction enum whose methods `define_instructions!` in
`src/macros.rs` generates (the macro hard-codes exactly these seven
variants in its `value`/`parse_instruction`/`to_u16` bodies), instantiated
with the crate `Register`. -/
inductive Instruction where
  | Nop
  | Push (v : Nat)
  | PopRegister (r : Register)
  | PushRegister (r : Register)
  | AddRegister (r1 r2 : Register)
  | AddStack
  | Signal (s : Nat)
  deriving DecidableEq, Repr

/-- The macro-generated `value` method (explicit match, no unsafe cast). -/
def Instruction.value : Instruction → Nat
  | .Nop => 0x00
  | .Push _ => 0x01
  | .PopRegister _ => 0x02
  | .PushRegister _ => 0x03
  | .AddRegister _ _ => 0x04
  | .AddStack => 0x0F
  | .Signal _ => 0x09

/-- The macro-generated `parse_instruction_arg`:
`((ins >> 8) & 0xFF) as u8`, i.e. `ins / 256 % 256`. -/
def Instruction.parse_instruction_arg (ins : Nat) : Nat :=
  ins / 256 % 256

/-- The macro-generated `parse_instruction`: match on
`op = (ins & 0xFF) as u8` (i.e. `ins % 256`) with arms in source order
0x00, 0x01, 0x09, 0x02, 0x03, 0x04, 0x0F, wildcard. -/
def Instruction.parse_instruction (ins : Nat) : Except VMErr Instruction :=
  let op := ins % 256
  let arg := Instruction.parse_instruction_arg ins
  if op = 0x00 then .ok .Nop
  else if op = 0x01 then .ok (.Push arg)
  else if op = 0x09 then .ok (.Signal arg)
  else if op = 0x02 then
    match Register.from_u8 arg with
    | some r => .ok (.PopRegister r)
    | none => .error (.unknownRegister arg)
  else if op = 0x03 then
    match Register.from_u8 arg with
    | some r => .ok (.PushRegister r)
    | none => .error (.unknownRegister arg)
  else if op = 0x04 then
    let reg1 := arg / 16 % 16
    let reg2 := arg % 16
    match Register.from_u8 reg1 with
    | none => .error (.unknownRegister reg1)
    | some r1 =>
      match Register.from_u8 reg2 with
      | none => .error (.unknownRegister reg2)
      | some r2 => .ok (.AddRegister r1 r2)
  else if op = 0x0F then .ok .AddStack
  else .error (.unknownOp op)

/-- The macro-generated `to_u16`.  Transliteration of the bit packing
(`arg` is a `u8`, register codes are < 16):
`((arg as u16) << 8) | 0x01` is `arg * 256 + 0x01` (the low byte of
`arg << 8` is zero, so the or is addition), and for `AddRegister`
`combined_arg = ((reg1 & 0x0F) << 4) | (reg2 & 0x0F)` is
`reg1.code % 16 * 16 + reg2.code % 16`. -/
def Instruction.to_u16 : Instruction → Nat
  | .Nop => 0x00
  | .Push arg => arg * 256 + 0x01
  | .Signal arg => arg * 256 + 0x09
  | .PopRegister reg => reg.code * 256 + 0x02
  | .PushRegister reg => reg.code * 256 + 0x03
  | .AddRegister reg1 reg2 => (reg1.code % 16 * 16 + reg2.code % 16) * 256 + 0x04
  | .AddStack => 0x0F

/-- The representable operands of an `Instruction`: the `u8` payloads of
`Push` and `Signal` are bytes (register payloads are constrained by their
type already). -/
abbrev Instruction.Representable : Instruction → Prop
  | .Push v => v < 256
  | .Signal s => s < 256
  | _ => True

end rustyvm

/-! ## Concrete fixtures used by witnesses and counterexamples -/

/-- The empty signal-handler table (no `define_handler` call was made). -/
def emptyTable : machine.SignalTable := fun _ => none

/-- A fresh machine whose PC was moved to 8192, one past the last valid
address of its 8 KB memory: the instruction fetch at PC faults. -/
def c3x_machine : machine.Machine :=
  { machine.Machine.new with registers := (machine.setReg machine.Machine.new.registers machine.Register.PC 8192) }

/-- Memory holding an `AddStack` instruction (opcode 3 of the
`src/machine.rs` table) at address 0 and the stack values 65535 (pushed
first) and 3 (pushed last) at 0x1000 and 0x1002. -/
def c4w_mem : LinearMemory :=
  ((((machine.Machine.new.memory.write 0 3).1).write2 4096 65535).1.write2 4098 3).1

/-- Machine about to execute `AddStack` on a stack holding 65535 and 3. -/
def c4w_m : machine.Machine :=
  { machine.Machine.new with memory := c4w_mem, registers := (machine.setReg machine.Machine.new.registers machine.Register.SP 4100) }

/-- `c4w_m` after the PC advance of `step`. -/
def c4w_m1 : machine.Machine :=
  { c4w_m with registers := (machine.setReg c4w_m.registers machine.Register.PC ((c4w_m.registers machine.Register.PC + 2) % 65536)) }

/-- State after the first `AddStack` pop. -/
def c4w_ma : machine.Machine := (machine.Machine.pop c4w_m1).1

/-- State after the second `AddStack` pop. -/
def c4w_mb : machine.Machine := (machine.Machine.pop c4w_ma).1

/-- A fresh machine whose SP was moved to 0: the next pop decrements SP to
65534 (wrapping), which is outside the 8 KB memory, so the pop faults. -/
def c6w_m : machine.Machine :=
  { machine.Machine.new with registers := (machine.setReg machine.Machine.new.registers machine.Register.SP 0) }

/-- The memory of the library usage example: `PUSH 10; PUSH 8; ADDSTACK;
POPREGISTER A` in the `src/machine.rs` encoding (opcodes 1, 1, 3, 2),
written byte by byte starting at address 0. -/
def c7_mem : LinearMemory :=
  ((((((((machine.Machine.new.memory.write 0 0x01).1.write 1 10).1.write 2 0x01).1.write 3 8).1.write 4 0x03).1.write 5 0).1.write 6 0x02).1.write 7 0).1

/-- Fresh machine loaded with the demo program. -/
def c7_machine : machine.Machine := { machine.Machine.new with memory := c7_mem }

/-- Result of the first `step` on the demo program (`Push 10`). -/
def c7_s1 : machine.Machine × Except VMErr Unit := machine.Machine.step emptyTable c7_machine

/-- Result of the second `step` (`Push 8`). -/
def c7_s2 : machine.Machine × Except VMErr Unit := machine.Machine.step emptyTable c7_s1.1

/-- Result of the third `step` (`AddStack`). -/
def c7_s3 : machine.Machine × Except VMErr Unit := machine.Machine.step emptyTable c7_s2.1

/-- Result of the fourth `step` (`PopRegister A`). -/
def c7_s4 : machine.Machine × Except VMErr Unit := machine.Machine.step emptyTable c7_s3.1

/-- A fresh machine whose memory holds the instruction bytes `05 2A`
(`Signal(0x2A)` in the `src/machine.rs` encoding) at address 0. -/
def c9w_m : machine.Machine :=
  { machine.Machine.new with memory := ((machine.Machine.new.memory.write 0 5).1.write 1 42).1 }

/-- A fresh machine whose PC was moved to 9000, outside its 8 KB memory. -/
def c10w_m : machine.Machine :=
  { machine.Machine.new with registers := (machine.setReg machine.Machine.new.registers machine.Register.PC 9000) }

/-! ## Helper lemmas -/

/-- `write2` reports success exactly when both byte addresses it touches
are in bounds. -/
theorem write2_true_iff (mem : LinearMemory) (addr v : Nat) :
    (mem.write2 addr v).2 = true ↔ addr < mem.size ∧ (addr + 1) % 65536 < mem.size := by
  unfold LinearMemory.write2 LinearMemory.write
  by_cases h1 : addr < mem.size <;> by_cases h2 : (addr + 1) % 65536 < mem.size <;>
    simp [h1, h2]

/-- Reading back a 16-bit value just written at in-bounds addresses
recovers the value. -/
theorem read2_write2_same (mem : LinearMemory) (addr v : Nat)
    (h1 : addr < mem.size) (h2 : (addr + 1) % 65536 < mem.size)
    (hv : v < 65536) :
    ((mem.write2 addr v).1).read2 addr = some v := by
  have hne : ¬(addr = (addr + 1) % 65536) := by omega
  simp only [LinearMemory.write2, LinearMemory.write, if_pos h1]
  simp only [if_pos h2]
  simp only [LinearMemory.read2, LinearMemory.read]
  simp only [if_pos h1, if_pos h2]
  rw [if_neg hne]
  simp only [if_true]
  congr 1
  omega

/-- Reading the register a `setReg` just wrote gives the written value. -/
theorem setReg_same (regs : machine.Register → Nat) (r : machine.Register) (v : Nat) :
    machine.setReg regs r v r = v := by
  simp [machine.setReg]

/-- `setReg` leaves every other register unchanged. -/
theorem setReg_other (regs : machine.Register → Nat) (r : machine.Register) (v : Nat)
    (x : machine.Register) (h : x ≠ r) : machine.setReg regs r v x = regs x := by
  simp [machine.setReg, h]

/-- Writing a register and then restoring its old value is the identity. -/
theorem setReg_cancel (regs : machine.Register → Nat) (r : machine.Register) (x : Nat) :
    machine.setReg (machine.setReg regs r x) r (regs r) = regs := by
  funext y
  by_cases h : y = r <;> simp [machine.setReg, h]

/-- `push` only ever writes the SP register. -/
theorem push_preserves_reg (m : machine.Machine) (v : Nat) (r : machine.Register)
    (h : r ≠ machine.Register.SP) :
    ((machine.Machine.push m v).1).registers r = m.registers r := by
  simp only [machine.Machine.push]
  rcases hw : m.memory.write2 (m.registers machine.Register.SP) v with ⟨mem1, ok⟩
  cases ok <;> simp [hw, setReg_other _ _ _ _ h]

/-- `pop` only ever writes the SP register. -/
theorem pop_preserves_reg (m : machine.Machine) (r : machine.Register)
    (h : r ≠ machine.Register.SP) :
    ((machine.Machine.pop m).1).registers r = m.registers r := by
  simp only [machine.Machine.pop]
  split <;> simp [setReg_other _ _ _ _ h]

/-- The decoder of `src/machine.rs` never produces `AddRegister`
(opcode 4 is a `TODO` there and falls through to the unknown-op error). -/
theorem parse_ne_addreg (ins : Nat) (r1 r2 : machine.Register) :
    machine.parse_instructions ins ≠ .ok (.AddRegister r1 r2) := by
  simp only [machine.parse_instructions]
  split_ifs <;> first | (split <;> simp) | simp

/-! ## Claim theorems -/

/-- C1: for every 16-bit instruction word, the decoder of
`src/opcodes.rs` maps the low-byte opcode to operations exactly as the
specification table prescribes (0x00 Nop, 0x01 Push(arg), 0x02
PopRegister, 0x03 PushRegister, 0x04 AddRegister with the argument nibbles
high-first, 0x09 Signal(arg), 0x0F AddStack, anything else an
unknown-opcode failure), stated as pointwise equality with `decode_spec`,
the decoder written from the specification words. -/
theorem decode_follows_spec_table (ins : Nat) :
    rustyvm.parse_instructions ins = rustyvm.decode_spec ins := by
  simp only [rustyvm.parse_instructions, rustyvm.decode_spec, rustyvm.Op.value,
    rustyvm.parse_instructions_arg]
  split_ifs <;> first | rfl | omega

/-- C2: for every representable operation (all variants, byte-sized
`Push`/`Signal` payloads, any registers), decoding the 16-bit word
produced by `to_u16` gives back exactly the operation. -/
theorem decode_encode_roundtrip (op : rustyvm.Instruction) (h : op.Representable) :
    rustyvm.Instruction.parse_instruction op.to_u16 = .ok op := by
  cases op with
  | Nop => rfl
  | AddStack => rfl
  | Push v =>
    have hv : v < 256 := h
    have h1 : (v * 256 + 1) % 256 = 1 := by omega
    have h2 : (v * 256 + 1) / 256 % 256 = v := by omega
    simp only [rustyvm.Instruction.to_u16, rustyvm.Instruction.parse_instruction,
      rustyvm.Instruction.parse_instruction_arg, h1, h2]
    simp
  | Signal s =>
    have hs : s < 256 := h
    have h1 : (s * 256 + 9) % 256 = 9 := by omega
    have h2 : (s * 256 + 9) / 256 % 256 = s := by omega
    simp only [rustyvm.Instruction.to_u16, rustyvm.Instruction.parse_instruction,
      rustyvm.Instruction.parse_instruction_arg, h1, h2]
    simp
  | PopRegister r => cases r <;> rfl
  | PushRegister r => cases r <;> rfl
  | AddRegister r1 r2 => cases r1 <;> cases r2 <;> rfl

/-- C2 witness: the roundtrip at the concrete operation `Push 10`. -/
theorem decode_encode_roundtrip_witness :
    rustyvm.Instruction.parse_instruction (rustyvm.Instruction.Push 10).to_u16
      = .ok (.Push 10) :=
  decode_encode_roundtrip (.Push 10) (by decide)

/-- C3 counterexample: on a machine whose PC is 8192 (one past the end of
its 8 KB memory) the fetch fails and `step` returns without advancing PC,
so PC after the step is not PC before plus 2. -/
theorem step_pc_always_advances_counterexample :
    ¬ (((machine.Machine.step emptyTable c3x_machine).1).registers machine.Register.PC
        = c3x_machine.registers machine.Register.PC + 2) := by
  decide

/-- C3 (amended): when the instruction fetch succeeds, PC after `step`
equals PC before plus 2 (mod 2^16) regardless of decode or execution
outcome, provided the executed operation does not itself overwrite PC
(`PopRegister PC`, or a signal handler that writes PC); when the fetch
fails, PC is unchanged. -/
theorem step_pc_advance_after_fetch (handlers : machine.SignalTable) (m : machine.Machine)
    (hh : ∀ s f, handlers s = some f →
      ∀ x : machine.Machine, ((f x).1).registers machine.Register.PC = x.registers machine.Register.PC) :
    (∀ ins, m.memory.read2 (m.registers machine.Register.PC) = some ins →
      machine.parse_instructions ins ≠ .ok (.PopRegister machine.Register.PC) →
      ((machine.Machine.step handlers m).1).registers machine.Register.PC
        = (m.registers machine.Register.PC + 2) % 65536) ∧
    (m.memory.read2 (m.registers machine.Register.PC) = none →
      ((machine.Machine.step handlers m).1).registers machine.Register.PC
        = m.registers machine.Register.PC) := by
  constructor
  · intro ins hread hnot
    simp only [machine.Machine.step, hread]
    generalize hm1 : ({ m with registers := (machine.setReg m.registers machine.Register.PC ((m.registers machine.Register.PC + 2) % 65536)) } : machine.Machine) = m1
    have hm1pc : m1.registers machine.Register.PC
        = (m.registers machine.Register.PC + 2) % 65536 := by
      rw [← hm1]; simp [setReg_same]
    rw [← hm1pc]
    cases hp : machine.parse_instructions ins with
    | error e => simp
    | ok op =>
      cases op with
      | Nop => rfl
      | Push v => exact push_preserves_reg m1 v machine.Register.PC (by decide)
      | PopRegister r =>
        have hr : r ≠ machine.Register.PC := by
          rintro rfl; exact hnot hp
        rcases hpop : machine.Machine.pop m1 with ⟨m2, res⟩
        have hm2 : m2.registers machine.Register.PC = m1.registers machine.Register.PC := by
          have h0 := pop_preserves_reg m1 machine.Register.PC (by decide)
          rw [hpop] at h0
          exact h0
        cases res with
        | error e => simp [hpop, hm2]
        | ok value => simp [hpop, setReg_other _ _ _ _ (Ne.symm hr), hm2]
      | AddStack =>
        rcases hpop1 : machine.Machine.pop m1 with ⟨m2, res1⟩
        have hm2 : m2.registers machine.Register.PC = m1.registers machine.Register.PC := by
          have h0 := pop_preserves_reg m1 machine.Register.PC (by decide)
          rw [hpop1] at h0
          exact h0
        cases res1 with
        | error e => simp [hpop1, hm2]
        | ok a =>
          rcases hpop2 : machine.Machine.pop m2 with ⟨m3, res2⟩
          have hm3 : m3.registers machine.Register.PC = m2.registers machine.Register.PC := by
            have h0 := pop_preserves_reg m2 machine.Register.PC (by decide)
            rw [hpop2] at h0
            exact h0
          cases res2 with
          | error e => simp [hpop1, hpop2, hm2, hm3]
          | ok b =>
            have hm4 := push_preserves_reg m3 ((a + b) % 65536) machine.Register.PC (by decide)
            simp [hpop1, hpop2, hm2, hm3, hm4]
      | AddRegister r1 r2 => exact absurd hp (parse_ne_addreg ins r1 r2)
      | Signal s =>
        cases hs : handlers s with
        | none => simp [hs]
        | some f => simp [hs, hh s f hs m1]
  · intro hread
    simp [machine.Machine.step, hread]

/-- C3 witness: on a fresh machine (PC = 0, a `Nop` word at address 0) a
step with no handlers advances PC to 2. -/
theorem step_pc_advance_after_fetch_witness :
    ((machine.Machine.step emptyTable machine.Machine.new).1).registers machine.Register.PC = 2 :=
  (step_pc_advance_after_fetch emptyTable machine.Machine.new
      (fun _ _ h => Option.noConfusion h)).1 0 rfl (by decide)

/-- C4: when `step` decodes `AddStack`, it pops two values (the
most-recently pushed popped first as `a`, then `b`), computes `a + b`
with 16-bit unsigned wraparound and no overflow detection, and pushes the
result: the whole step is exactly `push` of `(a + b) % 2^16` on the state
after the two pops, for every pair of stack values. -/
theorem step_addstack_wrapping (handlers : machine.SignalTable) (m ma mb : machine.Machine)
    (ins a b : Nat)
    (hread : m.memory.read2 (m.registers machine.Register.PC) = some ins)
    (hparse : machine.parse_instructions ins = .ok .AddStack)
    (hpa : machine.Machine.pop
        { m with registers := (machine.setReg m.registers machine.Register.PC ((m.registers machine.Register.PC + 2) % 65536)) } = (ma, .ok a))
    (hpb : machine.Machine.pop ma = (mb, .ok b)) :
    machine.Machine.step handlers m = machine.Machine.push mb ((a + b) % 65536) := by
  simp only [machine.Machine.step, hread, hparse, hpa, hpb]

/-- C4 witness: `AddStack` on the stack values 65535 (below) and 3 (on
top) pops `a = 3` then `b = 65535` and pushes `(3 + 65535) % 65536 = 2`,
a pair whose true sum exceeds 0xFFFF. -/
theorem step_addstack_wrapping_witness :
    machine.Machine.step emptyTable c4w_m = machine.Machine.push c4w_mb ((3 + 65535) % 65536) :=
  step_addstack_wrapping emptyTable c4w_m c4w_ma c4w_mb 3 3 65535 rfl rfl rfl rfl

/-- C5: whenever `push v` succeeds, the immediately following `pop`
succeeds, returns `v`, and leaves SP at its value before the push; since
the machine state is universally quantified this holds embedded in any
sequence of in-bounds pushes and pops. -/
theorem pop_after_push_returns_value (m : machine.Machine) (v : Nat) (hv : v < 65536)
    (hsp : m.registers machine.Register.SP < 65536)
    (hpush : (machine.Machine.push m v).2 = .ok ()) :
    (machine.Machine.pop (machine.Machine.push m v).1).2 = .ok v ∧
    ((machine.Machine.pop (machine.Machine.push m v).1).1).registers machine.Register.SP
      = m.registers machine.Register.SP := by
  rcases hw : m.memory.write2 (m.registers machine.Register.SP) v with ⟨mem1, ok⟩
  cases ok with
  | false => exfalso; simp [machine.Machine.push, hw] at hpush
  | true =>
    have hbounds := (write2_true_iff m.memory (m.registers machine.Register.SP) v).mp
      (by rw [hw])
    have hread : mem1.read2 (m.registers machine.Register.SP) = some v := by
      have h := read2_write2_same m.memory (m.registers machine.Register.SP) v
        hbounds.1 hbounds.2 hv
      rw [hw] at h
      exact h
    have hpush1 : (machine.Machine.push m v).1 = { m with memory := mem1, registers := (machine.setReg m.registers machine.Register.SP ((m.registers machine.Register.SP + 2) % 65536)) } := by
      simp [machine.Machine.push, hw]
    rw [hpush1]
    have e2 : (m.registers machine.Register.SP + 2 + 65534) % 65536
        = m.registers machine.Register.SP := by omega
    simp [machine.Machine.pop, setReg_same, Nat.mod_add_mod, e2, hread]

/-- C5 witness: pushing 0xABCD on a fresh machine and popping it back
yields 0xABCD and restores SP to 0x1000. -/
theorem pop_after_push_returns_value_witness :
    (machine.Machine.pop (machine.Machine.push machine.Machine.new 43981).1).2 = .ok 43981 ∧
    ((machine.Machine.pop (machine.Machine.push machine.Machine.new 43981).1).1).registers machine.Register.SP
      = machine.Machine.new.registers machine.Register.SP :=
  pop_after_push_returns_value machine.Machine.new 43981 (by decide) (by decide) rfl

/-- C6: when the 16-bit read at the decremented SP fails, `pop` returns
the memory-read-fault error and the machine is left exactly as it was: in
particular SP equals its value before the pop (no partial SP mutation
survives the fault). -/
theorem pop_fault_restores_sp (m : machine.Machine)
    (hsp : m.registers machine.Register.SP < 65536)
    (hfail : m.memory.read2 ((m.registers machine.Register.SP + 65536 - 2) % 65536) = none) :
    machine.Machine.pop m
      = (m, .error (.memoryReadFault ((m.registers machine.Register.SP + 65536 - 2) % 65536))) := by
  have addr_eq : (m.registers machine.Register.SP + 65534) % 65536
      = (m.registers machine.Register.SP + 65536 - 2) % 65536 := by omega
  have hfail2 : m.memory.read2 ((m.registers machine.Register.SP + 65534) % 65536) = none := by
    rw [addr_eq]; exact hfail
  have e : (m.registers machine.Register.SP + 65534 + 2) % 65536
      = m.registers machine.Register.SP := by omega
  simp [machine.Machine.pop, setReg_same, hfail2, e, setReg_cancel]

/-- C6 witness: popping with SP = 0 decrements SP (wrapping) to 65534,
the read there is out of the 8 KB bounds, and the machine comes back
untouched with the fault naming address 65534. -/
theorem pop_fault_restores_sp_witness :
    machine.Machine.pop c6w_m = (c6w_m, .error (.memoryReadFault 65534)) :=
  pop_fault_restores_sp c6w_m (by decide) rfl

/-- C7: on a fresh machine (8 KB zeroed memory, SP = 0x1000, PC = 0)
loaded with `Push 10; Push 8; AddStack; PopRegister A`, four `step` calls
all succeed and leave register A = 18, SP = 0x1000 and PC = 8. -/
theorem demo_program_final_state :
    c7_s1.2 = .ok () ∧ c7_s2.2 = .ok () ∧ c7_s3.2 = .ok () ∧ c7_s4.2 = .ok () ∧
    c7_s4.1.registers machine.Register.A = 18 ∧
    c7_s4.1.registers machine.Register.SP = 0x1000 ∧
    c7_s4.1.registers machine.Register.PC = 8 :=
  ⟨rfl, rfl, rfl, rfl, rfl, rfl, rfl⟩

/-- C8: for every address with `addr + 1` inside the memory and every
16-bit value, `write2` followed by `read2` at the same address recovers
the value (low byte at `addr`, high byte at `addr + 1`). -/
theorem write2_read2_roundtrip (mem : LinearMemory) (addr v : Nat)
    (haddr : addr + 1 < mem.size) (hv : v < 65536) :
    ((mem.write2 addr v).1).read2 addr = some v := by
  have h1 : addr < mem.size := by omega
  have h2 : (addr + 1) % 65536 < mem.size := by omega
  exact read2_write2_same mem addr v h1 h2 hv

/-- C8 witness: writing 0xABCD at address 100 of a fresh 8 KB memory and
reading it back yields 0xABCD. -/
theorem write2_read2_roundtrip_witness :
    (((LinearMemory.new 8192).write2 100 43981).1).read2 100 = some 43981 :=
  write2_read2_roundtrip (LinearMemory.new 8192) 100 43981 (by decide) (by decide)

/-- C9: when the fetched word decodes to `Signal c` and the handler table
has no entry for `c`, `step` returns the unknown-signal error for `c` and
the resulting state differs from the initial one only in PC, which was
already advanced by 2: every other register, the memory and the halt flag
are unchanged. -/
theorem step_unknown_signal_fault (handlers : machine.SignalTable) (m : machine.Machine)
    (c ins : Nat)
    (hno : handlers c = none)
    (hread : m.memory.read2 (m.registers machine.Register.PC) = some ins)
    (hparse : machine.parse_instructions ins = .ok (.Signal c)) :
    machine.Machine.step handlers m
      = ({ m with registers := (machine.setReg m.registers machine.Register.PC ((m.registers machine.Register.PC + 2) % 65536)) },
         .error (.unknownSignal c)) := by
  simp only [machine.Machine.step, hread, hparse, hno]

/-- C9 witness: executing `Signal(0x2A)` on a fresh machine with an empty
handler table returns `UnknownSignal(42)` with PC advanced to 2 and
nothing else changed. -/
theorem step_unknown_signal_fault_witness :
    machine.Machine.step emptyTable c9w_m
      = ({ c9w_m with registers := (machine.setReg c9w_m.registers machine.Register.PC ((c9w_m.registers machine.Register.PC + 2) % 65536)) },
         .error (.unknownSignal 42)) :=
  step_unknown_signal_fault emptyTable c9w_m 42 10757 rfl rfl rfl

/-- C10: when the 16-bit instruction fetch at PC fails, `step` returns
the memory-fault error naming PC and the machine is returned exactly as
it was: PC not advanced, no register, memory byte or halt flag changed. -/
theorem step_fetch_fault_leaves_state (handlers : machine.SignalTable) (m : machine.Machine)
    (hfail : m.memory.read2 (m.registers machine.Register.PC) = none) :
    machine.Machine.step handlers m
      = (m, .error (.fetchFault (m.registers machine.Register.PC))) := by
  simp only [machine.Machine.step, hfail]

/-- C10 witness: a step attempted with PC = 9000 (out of the 8 KB bounds)
returns the fetch fault for 9000 and the machine unchanged. -/
theorem step_fetch_fault_leaves_state_witness :
    machine.Machine.step emptyTable c10w_m = (c10w_m, .error (.fetchFault 9000)) :=
  step_fetch_fault_leaves_state emptyTable c10w_m rfl
